import Mathlib

/-!
Verification of the research-scholar-agent pipeline.

Shallow embedding conventions:
  - Python strings are modelled as lists of characters (abbrev Str).
  - Python floats are modelled exactly: rationals where only field access,
    division and comparison occur (Jaccard similarity), reals where the
    exponential function is involved (paper scoring).
  - The regex classes [^a-z0-9\s] and \s+ of utils/text.py are modelled over
    the ASCII whitespace characters (space, tab, newline, carriage return,
    vertical tab, form feed); str.lower is modelled on the ASCII range.
  - Network calls (retrieval, LLM generation) are modelled as explicit
    parameters: the retrieved papers are passed to run_research directly, and
    the outcome of the LLM synthesis is an Option value, none meaning any
    construction or generation failure (which the code turns into the
    deterministic fallback).
-/

set_option maxRecDepth 4000

abbrev Str := List Char

/-- Model of the regex class backslash-s over ASCII. -/
def isWsChar (c : Char) : Bool :=
  c.toNat = 32 || c.toNat = 9 || c.toNat = 10 || c.toNat = 13 || c.toNat = 11 || c.toNat = 12

/-- Characters kept by the substitution of the regex [^a-z0-9 whitespace]. -/
def isLowerAlnum (c : Char) : Bool :=
  (97 ≤ c.toNat && c.toNat ≤ 122) || (48 ≤ c.toNat && c.toNat ≤ 57)

/-- Model of str.lower on the ASCII range (text.py line 12). -/
def lowerChar (c : Char) : Char :=
  if 65 ≤ c.toNat && c.toNat ≤ 90 then Char.ofNat (c.toNat + 32) else c

/-- Model of PUNCT_RE.sub(" ", text): every char outside [a-z0-9 whitespace]
becomes a space (text.py line 13). -/
def punctSub (s : Str) : Str :=
  s.map (fun c => if isLowerAlnum c || isWsChar c then c else ' ')

/-- Model of WS_RE.sub(" ", text): each maximal whitespace run becomes one
space (text.py line 14). The flag records whether the previous character was
whitespace, i.e. whether we are inside a run. -/
def wsCollapseAux (prevWs : Bool) : Str → Str
  | [] => []
  | c :: rest =>
    if isWsChar c then
      if prevWs then wsCollapseAux true rest else ' ' :: wsCollapseAux true rest
    else c :: wsCollapseAux false rest

def wsCollapse (s : Str) : Str := wsCollapseAux false s

/-- Model of str.strip(): drop whitespace from both ends (text.py line 15). -/
def stripWs (s : Str) : Str :=
  ((s.dropWhile isWsChar).reverse.dropWhile isWsChar).reverse

/-- normalize_title from utils/text.py lines 11-15. -/
def normalize_title (s : Str) : Str :=
  stripWs (wsCollapse (punctSub (s.map lowerChar)))

/-- Model of str.split(" "): split on each single space character. -/
def splitOnSpace : Str → List Str
  | [] => [[]]
  | c :: rest =>
    if c = ' ' then [] :: splitOnSpace rest
    else
      match splitOnSpace rest with
      | [] => [[c]]
      | t :: ts => (c :: t) :: ts

/-- tokenize from utils/text.py lines 18-19: the set of non-empty tokens of
the normalized text. -/
def tokenize (s : Str) : Finset Str :=
  ((splitOnSpace (normalize_title s)).filter (fun t => t ≠ [])).toFinset

/-- jaccard_similarity from utils/text.py lines 22-31, with float division
modelled as exact rational division. -/
def jaccard_similarity (a b : Finset Str) : ℚ :=
  if a = ∅ ∧ b = ∅ then 1
  else if a = ∅ ∨ b = ∅ then 0
  else ((a ∩ b).card : ℚ) / ((a ∪ b).card : ℚ)

/-- Paper from schemas.py lines 8-20. -/
structure Paper where
  source : Str
  id : Option Str
  title : Str
  abstract : Str
  authors : List Str
  year : Option Int
  url : Str
  pdf_url : Option Str
  doi : Option Str
  venue : Option Str
deriving DecidableEq, Inhabited

/-- Citation from schemas.py lines 23-30. -/
structure Citation where
  index : Nat
  title : Str
  authors : List Str
  year : Option Int
  doi : Option Str
  url : Str
  source : Str
deriving DecidableEq, Inhabited

/-- ResearchRequest from schemas.py lines 33-36: no field constraint beyond
the types, in particular nothing restricts top_k. -/
structure ResearchRequest where
  query : Str
  top_k : Option Nat
  provider : Option Str
deriving DecidableEq

/-- ResearchResponse from schemas.py lines 39-44. -/
structure ResearchResponse where
  query : Str
  report_markdown : Str
  citations : List Citation
  num_sources : Nat
  selected : List Paper
deriving DecidableEq

/-- The DOI key of research.py lines 39-40: the test "if p.doi" is Python
truthiness, so a missing or empty DOI sends the paper to the DOI-less phase;
otherwise the key is the lower-cased, trimmed DOI. -/
def doiKey (p : Paper) : Option Str :=
  match p.doi with
  | none => none
  | some d => if d = [] then none else some (stripWs (d.map lowerChar))

/-- One step of the dict update of research.py lines 41-47: the first paper
per key is kept at its insertion position; a later paper with the same key
replaces the stored one exactly when its abstract is strictly longer. -/
def upsertDoi (assoc : List (Str × Paper)) (k : Str) (p : Paper) : List (Str × Paper) :=
  match assoc with
  | [] => [(k, p)]
  | (k0, q) :: rest =>
    if k0 = k then
      (if q.abstract.length < p.abstract.length then (k0, p) else (k0, q)) :: rest
    else (k0, q) :: upsertDoi rest k p

/-- The DOI phase of deduplicate_papers as an insertion-ordered association
list, modelling the Python dict seen_by_doi (research.py lines 36-48). -/
def doiAssoc (papers : List Paper) : List (Str × Paper) :=
  papers.foldl
    (fun acc p =>
      match doiKey p with
      | none => acc
      | some k => upsertDoi acc k p)
    []

/-- The DOI-less papers in original order (research.py lines 37-49). -/
def withoutDoi (papers : List Paper) : List Paper :=
  papers.filter (fun p => (doiKey p).isNone)

/-- The title-similarity phase of deduplicate_papers (research.py lines
52-60). The accumulator holds the token sets of ALL earlier DOI-less papers:
the source compares against title_tokens[:i], which also contains the papers
already dropped as duplicates. -/
def dedupTitle (earlier : List (Finset Str)) : List Paper → List Paper
  | [] => []
  | p :: rest =>
    let toks := tokenize p.title
    if earlier.any (fun q => decide ((9 : ℚ)/10 ≤ jaccard_similarity toks q)) then
      dedupTitle (earlier ++ [toks]) rest
    else p :: dedupTitle (earlier ++ [toks]) rest

/-- deduplicate_papers from research.py lines 34-61. -/
def deduplicate_papers (papers : List Paper) : List Paper :=
  (doiAssoc papers).map Prod.snd ++ dedupTitle [] (withoutDoi papers)

/-- A DOI-less paper with the given title, for concrete tests. -/
def mkTitled (t : Str) : Paper :=
  { source := "arxiv".data, id := none, title := t, abstract := [], authors := [],
    year := none, url := [], pdf_url := none, doi := none, venue := none }

/-- Python year-or-1990 of research.py line 72: the expression
"paper.year or 1990" is Python truthiness, so a missing year AND the year 0
both give 1990. -/
def pyYearOr (y : Option Int) : Int :=
  match y with
  | none => 1990
  | some v => if v = 0 then 1990 else v

/-- score_paper from research.py lines 64-76, floats modelled as reals. -/
noncomputable def score_paper (query : Str) (p : Paper) : ℝ :=
  let q := tokenize query
  let tokens_title := tokenize p.title
  let tokens_abs := tokenize p.abstract
  let match_title : ℕ := (q ∩ tokens_title).card
  let match_abs : ℕ := (q ∩ tokens_abs).card
  let relevance : ℕ := match_title * 2 + match_abs * 1
  let year : ℤ := pyYearOr p.year
  let recency : ℝ := ((max (min year 2030) 1990 - 1990 : ℤ) : ℝ) / ((2030 : ℝ) - 1990)
  let norm_rel : ℝ := 1 - Real.exp (-(0.3) * (relevance : ℝ))
  0.75 * norm_rel + 0.25 * recency

/-- Modelled from the words of the spec for comparison with score_paper: the
recency factor (clamp(year-or-1990, 1990, 2030) - 1990) / 40, with a missing
year counting as 1990. -/
noncomputable def specRecency (year : Option Int) : ℝ :=
  ((max 1990 (min (year.getD 1990) 2030) - 1990 : ℤ) : ℝ) / 40

/-- Modelled from the words of the spec for comparison with score_paper:
0.75 * (1 - exp(-0.3 * (2 mt + ma))) + 0.25 * recency. -/
noncomputable def specScore (mt ma : ℕ) (year : Option Int) : ℝ :=
  0.75 * (1 - Real.exp (-(0.3) * ((2 * mt + ma : ℕ) : ℝ))) + 0.25 * specRecency year

/-- The descending comparison used by the sort of research.py line 81. -/
def scoreGe (query : Str) (a b : Paper) : Prop :=
  score_paper query b ≤ score_paper query a

noncomputable instance (query : Str) : DecidableRel (scoreGe query) :=
  fun _ _ => Real.decidableLE _ _

instance (query : Str) : IsTotal Paper (scoreGe query) :=
  ⟨fun a b => le_total (score_paper query b) (score_paper query a)⟩

instance (query : Str) : IsTrans Paper (scoreGe query) :=
  ⟨fun _ _ _ hab hbc => le_trans hbc hab⟩

/-- The stable descending sort of research.py line 81: Python list.sort is a
stable sort, modelled by insertion sort with the non-strict descending
comparison (a new element goes after earlier equal-score elements). -/
noncomputable def sortPapers (query : Str) (papers : List Paper) : List Paper :=
  papers.insertionSort (scoreGe query)

/-- rank_and_select from research.py lines 79-82. -/
noncomputable def rank_and_select (query : Str) (papers : List Paper) (top_k : Nat) :
    List Paper :=
  (sortPapers query papers).take top_k

/-- The lexicographic comparison on index-tagged papers: better score first,
and for equal scores the smaller original index first. Sorting by it
characterizes the unique stable descending sort. -/
def lexRel (query : Str) (a b : Nat × Paper) : Prop :=
  score_paper query b.2 < score_paper query a.2 ∨
    (score_paper query a.2 = score_paper query b.2 ∧ a.1 ≤ b.1)

noncomputable instance (query : Str) : DecidableRel (lexRel query) := fun _ _ =>
  @instDecidableOr _ _ (Real.decidableLT _ _)
    (@instDecidableAnd _ _ (Real.decidableEq _ _) (Nat.decLe _ _))

/-- The stable sort restated on index-tagged papers. -/
noncomputable def lexSort (query : Str) (ps : List (Nat × Paper)) : List (Nat × Paper) :=
  ps.insertionSort (lexRel query)

/-- The citation url of research.py line 95: p.url or (p.pdf_url or ""). -/
def citationUrl (p : Paper) : Str :=
  if p.url = [] then p.pdf_url.getD [] else p.url

/-- One Citation as built by research.py lines 88-98. -/
def citationOf (idx : Nat) (p : Paper) : Citation :=
  { index := idx, title := p.title, authors := p.authors, year := p.year,
    doi := p.doi, url := citationUrl p, source := p.source }

/-- The loop of build_citations, starting at the given 1-based index. -/
def build_citations_from (idx : Nat) : List Paper → List Citation
  | [] => []
  | p :: rest => citationOf idx p :: build_citations_from (idx + 1) rest

/-- build_citations from research.py lines 85-99. -/
def build_citations (selected : List Paper) : List Citation :=
  build_citations_from 1 selected

/-- Decimal rendering of an integer, as a Python f-string does. -/
def pyIntStr (y : Int) : Str :=
  if y < 0 then '-' :: Nat.toDigits 10 y.natAbs else Nat.toDigits 10 y.natAbs

/-- Python "year or n.d." (truthiness: year 0 also renders as n.d.). -/
def yearOrNd (y : Option Int) : Str :=
  match y with
  | none => "n.d.".data
  | some v => if v = 0 then "n.d.".data else pyIntStr v

/-- Python "doi or n/a" (truthiness: an empty DOI renders as n/a). -/
def doiOrNa (d : Option Str) : Str :=
  match d with
  | none => "n/a".data
  | some s => if s = [] then "n/a".data else s

/-- Python: ", ".join(authors) if authors else "Unknown". -/
def authorsOrUnknown (authors : List Str) : Str :=
  if authors = [] then "Unknown".data else List.intercalate ", ".data authors

/-- One reference line of research.py line 165. -/
def refLine (c : Citation) : Str :=
  "[".data ++ Nat.toDigits 10 c.index ++ "] ".data ++ c.title ++ " — ".data ++
    authorsOrUnknown c.authors ++ " (".data ++ yearOrNd c.year ++ "); DOI: ".data ++
    doiOrNa c.doi ++ "; URL: ".data ++ c.url ++ "\n".data

/-- Python slicing snippet[:600] plus "..." when truncation occurred
(research.py line 156). -/
def truncSnippet (s : Str) : Str :=
  s.take 600 ++ (if 600 < s.length then "...".data else [])

/-- One Background bullet of research.py lines 155-156; the snippet is the
abstract, or the title when the abstract is empty, stripped. -/
def bgBullet (idx : Nat) (p : Paper) : Str :=
  let snippet := stripWs (if p.abstract = [] then p.title else p.abstract)
  "- ".data ++ p.title ++ " [".data ++ Nat.toDigits 10 idx ++ "]: ".data ++
    truncSnippet snippet ++ "\n".data

/-- The Background loop of research.py line 154, from a 1-based index. -/
def bgLinesFrom (idx : Nat) : List Paper → List Str
  | [] => []
  | p :: rest => bgBullet idx p :: bgLinesFrom (idx + 1) rest

/-- The Background bullets: one per paper among the first
max(3, len(selected) // 3) selected (research.py line 154). -/
def bgLines (selected : List Paper) : List Str :=
  bgLinesFrom 1 (selected.take (max 3 (selected.length / 3)))

/-- One Key Findings bullet of research.py line 159. -/
def kfBullet (idx : Nat) : Str :=
  "- Finding linked to [".data ++ Nat.toDigits 10 idx ++
    "] derived from its abstract and title.\n".data

/-- The Key Findings loop of research.py line 158, from a 1-based index. -/
def kfLinesFrom (idx : Nat) : List Paper → List Str
  | [] => []
  | _ :: rest => kfBullet idx :: kfLinesFrom (idx + 1) rest

/-- The Key Findings bullets: one per paper among the first 5 selected
(research.py line 158). -/
def kfLines (selected : List Paper) : List Str :=
  kfLinesFrom 1 (selected.take 5)

/-- The reference lines of research.py lines 163-165. -/
def refLines (cs : List Citation) : List Str :=
  cs.map refLine

/-- The fixed Executive Summary prose of research.py lines 147-150. -/
def execSummaryProse : Str :=
  ("This report summarizes key findings from the most relevant recent publications on the topic. " ++
    "It integrates evidence across sources and highlights areas of consensus and uncertainty.\n").data

/-- The line list built by synthesize_fallback (research.py lines 143-165). -/
def fallbackLines (query : Str) (selected : List Paper) : List Str :=
  ["# ".data ++ query ++ "\n".data, "## Executive Summary\n".data] ++
  [if selected.isEmpty then "No sources were retrieved. The summary below is limited.\n".data
    else execSummaryProse] ++
  ["## Background & Related Work\n".data] ++ bgLines selected ++
  ["## Key Findings & Themes\n".data] ++ kfLines selected ++
  ["## Limitations & Risks\n".data,
    "- This non-LLM fallback uses abstracts and may miss methodological nuance.\n".data] ++
  ["## References\n".data] ++ refLines (build_citations selected)

/-- Python "newline".join(lines) (research.py line 166). -/
def joinLines : List Str → Str
  | [] => []
  | [l] => l
  | l :: rest => l ++ '\n' :: joinLines rest

/-- synthesize_fallback from research.py lines 140-166. -/
def synthesize_fallback (query : Str) (selected : List Paper) : Str :=
  joinLines (fallbackLines query selected)

/-- synthesize_report from research.py lines 169-177: the LLM outcome is an
explicit parameter, none meaning any construction or generation failure, in
which case the deterministic fallback is used. -/
def synthesize_report (query : Str) (selected : List Paper) (llm : Option Str) : Str :=
  match llm with
  | some text => text
  | none => synthesize_fallback query selected

/-- run_research from research.py lines 180-192, with the retrieval outcome
and the LLM outcome as explicit parameters. Python "top_k or
settings.top_k_synthesis" is truthiness: both a missing top_k and top_k = 0
give the configured default 10. -/
noncomputable def run_research (query : Str) (top_k : Option Nat) (retrieved : List Paper)
    (llm : Option Str) : ResearchResponse :=
  let top_k_effective : Nat := match top_k with | none => 10 | some k => if k = 0 then 10 else k
  if retrieved.isEmpty then
    { query := query, report_markdown := synthesize_report query [] llm,
      citations := [], num_sources := 0, selected := [] }
  else
    let unique := deduplicate_papers retrieved
    let selected := rank_and_select query unique top_k_effective
    { query := query, report_markdown := synthesize_report query selected llm,
      citations := build_citations selected, num_sources := selected.length,
      selected := selected }

/-- The POST /research handler of api.py lines 27-29: it forwards the request
fields to run_research unchanged. -/
noncomputable def research_endpoint (req : ResearchRequest) (retrieved : List Paper)
    (llm : Option Str) : ResearchResponse :=
  run_research req.query req.top_k retrieved llm

/-- Python truthiness of an optional string. -/
def optTruthy : Option Str → Bool
  | none => false
  | some s => !s.isEmpty

/-- The configuration and import-time state the provider factory reads:
the fields of config.py plus whether the openai package import succeeded
(providers.py lines 12-15). -/
structure ProviderEnv where
  default_llm_provider : Option Str
  openai_api_key : Option Str
  together_api_key : Option Str
  ollama_base_url : Str
  openai_pkg_available : Bool

/-- The three provider variants of providers.py; the Ollama variant carries
its base url with trailing slashes stripped (providers.py line 81). -/
inductive Provider where
  | openai : Provider
  | together : Provider
  | ollama : Str → Provider
deriving DecidableEq

/-- Python str.rstrip("/"). -/
def rstripSlash (s : Str) : Str :=
  (s.reverse.dropWhile (fun c => c = '/')).reverse

/-- OpenAIProvider construction, providers.py lines 29-36: fails when the key
is missing or empty, or the openai package is unavailable. -/
def mkOpenAIProvider (env : ProviderEnv) : Except Str Provider :=
  if optTruthy env.openai_api_key = false then .error "OPENAI_API_KEY is not set".data
  else if env.openai_pkg_available = false then .error "openai package not available".data
  else .ok .openai

/-- TogetherProvider construction, providers.py lines 50-55: fails when the
key is missing or empty. -/
def mkTogetherProvider (env : ProviderEnv) : Except Str Provider :=
  if optTruthy env.together_api_key = false then .error "TOGETHER_API_KEY is not set".data
  else .ok .together

/-- OllamaProvider construction, providers.py lines 78-81: never fails. -/
def mkOllamaProvider (env : ProviderEnv) : Provider :=
  .ollama (rstripSlash env.ollama_base_url)

/-- The auto-detect tail of get_default_llm_provider (providers.py lines
122-131): OpenAI, then Together, then Ollama, continuing past each failure. -/
def autoDetectProvider (env : ProviderEnv) : Provider :=
  match mkOpenAIProvider env with
  | .ok p => p
  | .error _ =>
    match mkTogetherProvider env with
    | .ok p => p
    | .error _ => mkOllamaProvider env

/-- Python "preferred or settings.default_llm_provider" (truthiness). -/
def pyOrOpt (a b : Option Str) : Option Str :=
  if optTruthy a then a else b

/-- get_default_llm_provider from providers.py lines 111-131. -/
def get_default_llm_provider (preferred : Option Str) (env : ProviderEnv) :
    Except Str Provider :=
  match pyOrOpt preferred env.default_llm_provider with
  | none => .ok (autoDetectProvider env)
  | some c =>
    if c.isEmpty then .ok (autoDetectProvider env)
    else
      let cl := c.map lowerChar
      if cl = "openai".data then mkOpenAIProvider env
      else if cl = "together".data then mkTogetherProvider env
      else if cl = "ollama".data then .ok (mkOllamaProvider env)
      else .ok (autoDetectProvider env)

/-- The keys of a list in first-seen order, skipping keys already in acc. -/
def firstSeenKeys (acc : List Str) : List Str → List Str
  | [] => []
  | k :: rest =>
    if k ∈ acc then firstSeenKeys acc rest
    else k :: firstSeenKeys (acc ++ [k]) rest

/-- The keep-or-replace choice of the DOI phase: the current survivor is
replaced exactly when the new abstract is strictly longer. -/
def pickLonger (cur : Option Paper) (p : Paper) : Option Paper :=
  match cur with
  | none => some p
  | some c => if c.abstract.length < p.abstract.length then some p else some c

/-- First binding of a key in an association list. -/
def assocFind (k : Str) : List (Str × Paper) → Option Paper
  | [] => none
  | (k0, p) :: rest => if k0 = k then some p else assocFind k rest

/-- Keeps the elements whose 0-based position (counted from n) satisfies the
predicate. -/
def idxFilterFrom (pred : Nat → Bool) (n : Nat) : List Paper → List Paper
  | [] => []
  | p :: rest =>
    if pred n then p :: idxFilterFrom pred (n + 1) rest
    else idxFilterFrom pred (n + 1) rest

/-- The keep test of the title phase, position-indexed: position i survives
when its token set is strictly below the 0.90 threshold against the token
sets of the earlier list and of ALL previous positions, kept or dropped. -/
def keepFromPred (earlier : List (Finset Str)) (toks : List (Finset Str)) (i : Nat) : Bool :=
  (earlier ++ toks.take i).all fun q =>
    decide (jaccard_similarity (toks.getD i ∅) q < 9/10)

/-- The DOI-less survivors described positionally: paper i is kept iff its
Jaccard similarity is below 0.90 against every earlier DOI-less paper of the
input, dropped ones included. -/
def titleSurvivors (l : List Paper) : List Paper :=
  idxFilterFrom (keepFromPred [] (l.map (fun p => tokenize p.title))) 0 l

/-- A normalized character: lower-case alphanumeric or a single space. -/
def normChar (c : Char) : Prop := isLowerAlnum c = true ∨ c = ' '

/-- The head, if any, is not whitespace. -/
def headNotWs : Str → Bool
  | [] => true
  | c :: _ => !isWsChar c

/-- No two adjacent whitespace characters. -/
def noTwoWs : Str → Bool
  | [] => true
  | [_] => true
  | a :: b :: t => (!(isWsChar a && isWsChar b)) && noTwoWs (b :: t)

/-- Nine shared tokens; the kept first DOI-less paper. -/
def titleK : Str := "a1 a2 a3 a4 a5 a6 a7 a8 a9".data

/-- The nine tokens plus one: similarity 9/10 against titleK. -/
def titleA : Str := "a1 a2 a3 a4 a5 a6 a7 a8 a9 b1".data

/-- Eleven tokens: similarity 9/11 against titleK but 10/11 against
titleA. -/
def titleB : Str := "a1 a2 a3 a4 a5 a6 a7 a8 a9 b1 b2".data

example : normalize_title "  Hello,  World!! 42 ".data = "hello world 42".data := by decide
example : tokenize "Graph  Neural-Networks".data =
    {"graph".data, "neural".data, "networks".data} := by decide
example : jaccard_similarity (tokenize "a b".data) (tokenize "b c".data) = 1 / 3 := by
  have h1 : (tokenize "a b".data ∩ tokenize "b c".data).card = 1 := by decide
  have h2 : (tokenize "a b".data ∪ tokenize "b c".data).card = 3 := by decide
  have h3 : ¬(tokenize "a b".data = ∅) := by decide
  rw [jaccard_similarity, if_neg (by simp [h3]), if_neg (by simp [h3, show ¬(tokenize "b c".data = ∅) by decide]), h1, h2]
  norm_num
example : jaccard_similarity ∅ ∅ = 1 := by rw [jaccard_similarity, if_pos ⟨rfl, rfl⟩]
example : jaccard_similarity ∅ (tokenize "a".data) = 0 := by
  rw [jaccard_similarity, if_neg (by simp [show ¬(tokenize "a".data = ∅) by decide]), if_pos (Or.inl rfl)]

theorem build_citations_from_length (i : Nat) (l : List Paper) :
    (build_citations_from i l).length = l.length := by
  induction l generalizing i with
  | nil => rfl
  | cons p rest ih => simp [build_citations_from, ih]

theorem build_citations_from_enum (i : Nat) (l : List Paper) :
    build_citations_from i l = (List.enumFrom i l).map (fun ip => citationOf ip.1 ip.2) := by
  induction l generalizing i with
  | nil => rfl
  | cons p rest ih => rw [build_citations_from, List.enumFrom, List.map_cons, ih (i + 1)]

theorem build_citations_from_index (i : Nat) (l : List Paper) :
    (build_citations_from i l).map Citation.index = List.range' i l.length := by
  induction l generalizing i with
  | nil => rfl
  | cons p rest ih => simp [build_citations_from, citationOf, ih, List.range']

theorem joinLines_cons₂ (x y : Str) (t : List Str) :
    joinLines (x :: y :: t) = x ++ '\n' :: joinLines (y :: t) := rfl

theorem synthesize_fallback_ne_nil (q : Str) (sel : List Paper) :
    synthesize_fallback q sel ≠ [] := by
  have h : synthesize_fallback q sel =
      ("# ".data ++ q ++ "\n".data) ++ '\n' :: joinLines (fallbackLines q sel).tail := by
    rw [synthesize_fallback]
    rfl
  rw [h]
  simp

/-- C3: every ResearchResponse produced by run_research has citations and
selected of the same length, citation i the projection of selected paper i
(fields copied, url falling back from url to pdf_url to empty), citation
indices contiguous from 1, and num_sources equal to the common length. -/
theorem c3_citations_parallel (q : Str) (tk : Option Nat) (papers : List Paper)
    (llm : Option Str) :
    ((run_research q tk papers llm).citations.length =
        (run_research q tk papers llm).selected.length) ∧
    (run_research q tk papers llm).num_sources =
        (run_research q tk papers llm).selected.length ∧
    (run_research q tk papers llm).citations =
        (List.enumFrom 1 (run_research q tk papers llm).selected).map
          (fun ip => citationOf ip.1 ip.2) ∧
    (run_research q tk papers llm).citations.map Citation.index =
        List.range' 1 (run_research q tk papers llm).selected.length := by
  by_cases hp : papers.isEmpty
  · simp [run_research, hp]
  · simp only [run_research, hp, Bool.false_eq_true, if_false]
    refine ⟨?_, ?_, ?_, ?_⟩
    · rw [build_citations, build_citations_from_length]
    · trivial
    · exact build_citations_from_enum 1 _
    · exact build_citations_from_index 1 _

/-- C2 counterexample: with both retrievals failing and the LLM synthesis
succeeding with the empty string, run_research returns an empty
report_markdown, so the report is not always non-empty as claimed. -/
theorem c2_counterexample :
    (run_research "q".data none [] (some [])).num_sources = 0 ∧
    (run_research "q".data none [] (some [])).citations = [] ∧
    (run_research "q".data none [] (some [])).selected = [] ∧
    (run_research "q".data none [] (some [])).report_markdown = [] :=
  ⟨rfl, rfl, rfl, rfl⟩

/-- C2 amended: for every query, when both source retrievals fail (zero
papers retrieved) run_research returns num_sources = 0, citations = [],
selected = [], and a non-empty report_markdown unless the LLM synthesis
succeeds returning the empty string (in particular the report is non-empty
whenever the deterministic fallback produces it). -/
theorem c2_empty_retrieval (q : Str) (tk : Option Nat) (llm : Option Str)
    (h : llm ≠ some []) :
    (run_research q tk [] llm).num_sources = 0 ∧
    (run_research q tk [] llm).citations = [] ∧
    (run_research q tk [] llm).selected = [] ∧
    (run_research q tk [] llm).report_markdown ≠ [] := by
  refine ⟨by simp [run_research], by simp [run_research], by simp [run_research], ?_⟩
  simp only [run_research, List.isEmpty_nil, if_true]
  match llm with
  | none => exact synthesize_fallback_ne_nil q []
  | some s =>
    intro hs
    exact h (by simpa [synthesize_report] using congrArg some hs)

theorem c2_empty_retrieval_witness :
    (run_research "q".data none [] none).report_markdown ≠ [] :=
  (c2_empty_retrieval "q".data none none (by simp)).2.2.2

theorem map_fst_upsertDoi (assoc : List (Str × Paper)) (k : Str) (p : Paper) :
    (upsertDoi assoc k p).map Prod.fst =
      if k ∈ assoc.map Prod.fst then assoc.map Prod.fst else assoc.map Prod.fst ++ [k] := by
  induction assoc with
  | nil => simp [upsertDoi]
  | cons x rest ih =>
    obtain ⟨k0, q⟩ := x
    by_cases hk : k0 = k
    · by_cases habs : q.abstract.length < p.abstract.length <;>
        simp [upsertDoi, hk, habs]
    · have hk' : ¬k = k0 := fun h => hk h.symm
      by_cases hm : k ∈ rest.map Prod.fst <;>
        simp [upsertDoi, hk, hk', hm, ih]

theorem assocFind_upsertDoi (assoc : List (Str × Paper)) (k k' : Str) (p : Paper) :
    assocFind k' (upsertDoi assoc k p) =
      if k = k' then pickLonger (assocFind k assoc) p else assocFind k' assoc := by
  induction assoc with
  | nil => by_cases hk : k = k' <;> simp [upsertDoi, assocFind, pickLonger, hk]
  | cons x rest ih =>
    obtain ⟨k0, q⟩ := x
    by_cases h0 : k0 = k
    · by_cases hk : k = k'
      · by_cases habs : q.abstract.length < p.abstract.length <;>
          simp [upsertDoi, assocFind, pickLonger, h0, hk, habs]
      · have hk0 : ¬k0 = k' := fun h => hk (h0.symm.trans h)
        by_cases habs : q.abstract.length < p.abstract.length <;>
          simp [upsertDoi, assocFind, h0, hk, hk0, habs]
    · have h0' : ¬k = k0 := fun h => h0 h.symm
      by_cases hk : k0 = k'
      · have hkk' : ¬k = k' := fun h => h0 (hk.trans h.symm)
        have hk'k : ¬k' = k := fun h => hkk' h.symm
        simp [upsertDoi, assocFind, h0, hk, hkk', hk'k]
      · simp [upsertDoi, assocFind, h0, hk, ih]

theorem doiAssoc_keys_aux (l : List Paper) (assoc : List (Str × Paper)) :
    (l.foldl (fun acc p => match doiKey p with | none => acc | some k => upsertDoi acc k p)
        assoc).map Prod.fst =
      assoc.map Prod.fst ++ firstSeenKeys (assoc.map Prod.fst) (l.filterMap doiKey) := by
  induction l generalizing assoc with
  | nil => simp [firstSeenKeys]
  | cons p rest ih =>
    rw [List.foldl_cons, List.filterMap_cons]
    match hk : doiKey p with
    | none => exact ih assoc
    | some k =>
      rw [ih (upsertDoi assoc k p), map_fst_upsertDoi, firstSeenKeys]
      by_cases hm : k ∈ assoc.map Prod.fst
      · simp [hm]
      · simp [hm]

theorem doiAssoc_find_aux (l : List Paper) (assoc : List (Str × Paper)) (k : Str) :
    assocFind k
        (l.foldl (fun acc p => match doiKey p with | none => acc | some k => upsertDoi acc k p)
          assoc) =
      List.foldl pickLonger (assocFind k assoc)
        (l.filter (fun p => doiKey p = some k)) := by
  induction l generalizing assoc with
  | nil => rfl
  | cons p rest ih =>
    rw [List.foldl_cons, List.filter_cons]
    match hk : doiKey p with
    | none =>
      rw [if_neg (by simp [hk])]
      exact ih assoc
    | some k0 =>
      by_cases hkk : k0 = k
      · subst hkk
        rw [if_pos (by simp [hk]), List.foldl_cons, ih (upsertDoi assoc k0 p),
          assocFind_upsertDoi, if_pos rfl]
      · rw [if_neg (by simp [hk, hkk]), ih (upsertDoi assoc k0 p),
          assocFind_upsertDoi, if_neg hkk]

theorem dedupTitle_sublist (earlier : List (Finset Str)) (l : List Paper) :
    List.Sublist (dedupTitle earlier l) l := by
  induction l generalizing earlier with
  | nil => exact List.Sublist.refl []
  | cons p rest ih =>
    rw [dedupTitle]
    by_cases hc : (List.any earlier fun q =>
        decide ((9 : ℚ)/10 ≤ jaccard_similarity (tokenize p.title) q)) = true
    · rw [if_pos hc]
      exact (ih _).cons p
    · rw [if_neg hc]
      exact (ih _).cons₂ p

/-- C5: in the DOI phase, keys are the lower-cased trimmed DOIs in
first-seen order; the survivor stored for a key is the fold of keep-first,
replace-only-on-strictly-longer-abstract over the papers carrying that key
(one of those papers unchanged, so no field merging); and the result lists
the DOI-keyed survivors first, then the DOI-less survivors as a sublist of
the DOI-less papers, i.e. in their original relative order. -/
theorem c5_doi_phase (papers : List Paper) :
    (doiAssoc papers).map Prod.fst = firstSeenKeys [] (papers.filterMap doiKey) ∧
    (∀ k : Str, assocFind k (doiAssoc papers) =
      List.foldl pickLonger none (papers.filter (fun p => doiKey p = some k))) ∧
    deduplicate_papers papers =
      (doiAssoc papers).map Prod.snd ++ dedupTitle [] (withoutDoi papers) ∧
    List.Sublist (dedupTitle [] (withoutDoi papers)) (withoutDoi papers) := by
  refine ⟨?_, fun k => ?_, rfl, dedupTitle_sublist [] _⟩
  · have h := doiAssoc_keys_aux papers []
    simpa [doiAssoc] using h
  · have h := doiAssoc_find_aux papers [] k
    simpa [doiAssoc, assocFind] using h

theorem idxFilterFrom_shift (pred : Nat → Bool) (l : List Paper) (n : Nat) :
    idxFilterFrom pred (n + 1) l = idxFilterFrom (fun i => pred (i + 1)) n l := by
  induction l generalizing n with
  | nil => rfl
  | cons p rest ih =>
    rw [idxFilterFrom, idxFilterFrom, ih (n + 1)]

theorem idxFilterFrom_congr (p1 p2 : Nat → Bool) (h : ∀ i, p1 i = p2 i)
    (n : Nat) (l : List Paper) : idxFilterFrom p1 n l = idxFilterFrom p2 n l := by
  induction l generalizing n with
  | nil => rfl
  | cons p rest ih =>
    rw [idxFilterFrom, idxFilterFrom, h n, ih (n + 1)]

theorem keepFromPred_succ (earlier : List (Finset Str)) (t0 : Finset Str)
    (ts : List (Finset Str)) (i : Nat) :
    keepFromPred earlier (t0 :: ts) (i + 1) = keepFromPred (earlier ++ [t0]) ts i := by
  rw [keepFromPred, keepFromPred, List.take_succ_cons, List.getD_cons_succ,
    List.append_cons]

theorem dedupTitle_eq_idxFilter (l : List Paper) (earlier : List (Finset Str)) :
    dedupTitle earlier l =
      idxFilterFrom (keepFromPred earlier (l.map (fun p => tokenize p.title))) 0 l := by
  induction l generalizing earlier with
  | nil => rfl
  | cons p rest ih =>
    have hrec :
        idxFilterFrom (keepFromPred earlier ((p :: rest).map (fun p => tokenize p.title)))
          1 rest = dedupTitle (earlier ++ [tokenize p.title]) rest := by
      rw [List.map_cons, idxFilterFrom_shift,
        idxFilterFrom_congr _ _ (keepFromPred_succ earlier (tokenize p.title) _) 0 rest,
        ih (earlier ++ [tokenize p.title])]
    have hpred0 : keepFromPred earlier ((p :: rest).map (fun p => tokenize p.title)) 0 =
        earlier.all fun q =>
          decide (jaccard_similarity (tokenize p.title) q < 9/10) := by
      rw [keepFromPred]
      simp
    simp only [dedupTitle]
    by_cases hC : ∃ q ∈ earlier, (9 : ℚ)/10 ≤ jaccard_similarity (tokenize p.title) q
    · obtain ⟨q0, hq0, hle⟩ := hC
      have hany : (earlier.any fun q =>
          decide ((9 : ℚ)/10 ≤ jaccard_similarity (tokenize p.title) q)) = true :=
        List.any_eq_true.mpr ⟨q0, hq0, decide_eq_true hle⟩
      have hkeep : keepFromPred earlier ((p :: rest).map (fun p => tokenize p.title)) 0 =
          false := by
        rw [hpred0]
        refine Bool.eq_false_iff.mpr fun hall => ?_
        have hq := List.all_eq_true.mp hall q0 hq0
        rw [decide_eq_true_eq] at hq
        exact absurd hq (not_lt.mpr hle)
      rw [hany, if_pos rfl, idxFilterFrom, hkeep, if_neg (by simp), hrec]
    · push_neg at hC
      have hany : (earlier.any fun q =>
          decide ((9 : ℚ)/10 ≤ jaccard_similarity (tokenize p.title) q)) = false := by
        refine Bool.eq_false_iff.mpr fun hsome => ?_
        obtain ⟨q, hq, hdec⟩ := List.any_eq_true.mp hsome
        exact absurd (decide_eq_true_eq.mp hdec) (not_le.mpr (hC q hq))
      have hkeep : keepFromPred earlier ((p :: rest).map (fun p => tokenize p.title)) 0 =
          true := by
        rw [hpred0]
        simp only [List.all_eq_true, decide_eq_true_eq]
        exact fun q hq => hC q hq
      rw [hany, if_neg (by simp), idxFilterFrom, hkeep, if_pos rfl, hrec]

theorem ws_not_alnum {c : Char} (hw : isWsChar c = true) : isLowerAlnum c = false := by
  simp only [isWsChar, Bool.or_eq_true, decide_eq_true_eq] at hw
  refine Bool.eq_false_iff.mpr fun hal => ?_
  simp only [isLowerAlnum, Bool.or_eq_true, Bool.and_eq_true, decide_eq_true_eq] at hal
  omega

theorem noTwoWs_tail {a : Char} {t : Str} (h : noTwoWs (a :: t) = true) :
    noTwoWs t = true := by
  match t with
  | [] => rfl
  | b :: t' =>
    rw [noTwoWs, Bool.and_eq_true] at h
    exact h.2

theorem noTwoWs_cons_of {c : Char} {t : Str} (h : noTwoWs t = true)
    (h2 : isWsChar c = false ∨ headNotWs t = true) : noTwoWs (c :: t) = true := by
  match t with
  | [] => rfl
  | b :: t' =>
    rw [noTwoWs, Bool.and_eq_true]
    refine ⟨?_, h⟩
    rcases h2 with h2 | h2
    · simp [h2]
    · rw [headNotWs] at h2
      simp only [Bool.not_eq_true'] at h2
      simp [h2]

theorem headNotWs_of_noTwoWs {c : Char} {rest : Str} (h : noTwoWs (c :: rest) = true)
    (hw : isWsChar c = true) : headNotWs rest = true := by
  match rest with
  | [] => rfl
  | b :: t' =>
    rw [noTwoWs, Bool.and_eq_true] at h
    have h1 := h.1
    rw [headNotWs]
    simp only [hw, Bool.true_and, Bool.not_eq_true'] at h1
    simp [h1]

theorem noTwoWs_dropWhile (p : Char → Bool) (l : Str) (h : noTwoWs l = true) :
    noTwoWs (l.dropWhile p) = true := by
  induction l with
  | nil => exact h
  | cons c t ih =>
    rw [List.dropWhile_cons]
    by_cases hc : p c = true
    · rw [if_pos hc]
      exact ih (noTwoWs_tail h)
    · rw [if_neg hc]
      exact h

theorem noTwoWs_prefix : ∀ (l r : Str), noTwoWs (l ++ r) = true → noTwoWs l = true
  | [], _, _ => rfl
  | [_], _, _ => rfl
  | a :: b :: t, r, h => by
    rw [List.cons_append, List.cons_append] at h
    rw [noTwoWs, Bool.and_eq_true] at h ⊢
    obtain ⟨h1, h2⟩ := h
    rw [← List.cons_append] at h2
    exact ⟨h1, noTwoWs_prefix (b :: t) r h2⟩

theorem headNotWs_dropWhile (l : Str) : headNotWs (l.dropWhile isWsChar) = true := by
  induction l with
  | nil => rfl
  | cons c t ih =>
    rw [List.dropWhile_cons]
    by_cases hc : isWsChar c = true
    · rw [if_pos hc]
      exact ih
    · rw [if_neg hc, headNotWs]
      simp only [Bool.not_eq_true] at hc
      simp [hc]

theorem dropWhile_of_headNotWs {l : Str} (h : headNotWs l = true) :
    l.dropWhile isWsChar = l := by
  match l with
  | [] => rfl
  | c :: t =>
    rw [headNotWs] at h
    simp only [Bool.not_eq_true'] at h
    rw [List.dropWhile_cons, if_neg (by simp [h])]

theorem headNotWs_of_append {l r : Str} (h : headNotWs (l ++ r) = true) :
    headNotWs l = true := by
  cases l with
  | nil => rfl
  | cons c t => exact h

theorem punctSub_chars (s : Str) :
    ∀ c ∈ punctSub s, isLowerAlnum c = true ∨ isWsChar c = true := by
  intro c hc
  rw [punctSub] at hc
  obtain ⟨c0, _, hc0⟩ := List.mem_map.mp hc
  by_cases h : (isLowerAlnum c0 || isWsChar c0) = true
  · rw [if_pos h] at hc0
    subst hc0
    rw [Bool.or_eq_true] at h
    exact h
  · rw [if_neg h] at hc0
    subst hc0
    right
    decide

theorem wsCollapseAux_props (s : Str) :
    ∀ prev, (∀ c ∈ s, isLowerAlnum c = true ∨ isWsChar c = true) →
      (∀ c ∈ wsCollapseAux prev s, normChar c) ∧
      noTwoWs (wsCollapseAux prev s) = true ∧
      (prev = true → headNotWs (wsCollapseAux prev s) = true) := by
  induction s with
  | nil =>
    intro prev _
    exact ⟨fun c hc => absurd hc (List.not_mem_nil c), rfl, fun _ => rfl⟩
  | cons c t ih =>
    intro prev h
    have hc := h c (List.mem_cons_self _ _)
    have ht := fun d hd => h d (List.mem_cons_of_mem _ hd)
    by_cases hw : isWsChar c = true
    · rw [wsCollapseAux, if_pos hw]
      obtain ⟨ihc, ihn, ihh⟩ := ih true ht
      cases prev with
      | true =>
        rw [if_pos rfl]
        exact ⟨ihc, ihn, fun _ => ihh rfl⟩
      | false =>
        rw [if_neg (fun hf => nomatch hf)]
        refine ⟨?_, ?_, fun hf => nomatch hf⟩
        · intro d hd
          rcases List.mem_cons.mp hd with hd | hd
          · right
            exact hd
          · exact ihc d hd
        · exact noTwoWs_cons_of ihn (Or.inr (ihh rfl))
    · rw [wsCollapseAux, if_neg hw]
      obtain ⟨ihc, ihn, -⟩ := ih false ht
      have hcaln : isLowerAlnum c = true := by
        rcases hc with h1 | h1
        · exact h1
        · exact absurd h1 hw
      refine ⟨?_, ?_, ?_⟩
      · intro d hd
        rcases List.mem_cons.mp hd with hd | hd
        · subst hd
          exact Or.inl hcaln
        · exact ihc d hd
      · refine noTwoWs_cons_of ihn (Or.inl ?_)
        simp only [Bool.not_eq_true] at hw
        exact hw
      · intro _
        rw [headNotWs]
        simp only [Bool.not_eq_true] at hw
        simp [hw]

theorem wsCollapseAux_id (s : Str) :
    ∀ prev, (∀ c ∈ s, normChar c) → noTwoWs s = true →
      (prev = true → headNotWs s = true) → wsCollapseAux prev s = s := by
  induction s with
  | nil =>
    intro prev _ _ _
    rfl
  | cons c t ih =>
    intro prev hchars hn2 hprev
    have hc := hchars c (List.mem_cons_self _ _)
    have ht := fun d hd => hchars d (List.mem_cons_of_mem _ hd)
    by_cases hw : isWsChar c = true
    · have hcsp : c = ' ' := by
        rcases hc with h1 | h1
        · rw [ws_not_alnum hw] at h1
          exact absurd h1 (by simp)
        · exact h1
      cases prev with
      | true =>
        exfalso
        have hh := hprev rfl
        rw [headNotWs] at hh
        simp [hw] at hh
      | false =>
        rw [wsCollapseAux, if_pos hw, if_neg (fun hf => nomatch hf)]
        rw [ih true ht (noTwoWs_tail hn2) (fun _ => headNotWs_of_noTwoWs hn2 hw), hcsp]
    · rw [wsCollapseAux, if_neg hw]
      rw [ih false ht (noTwoWs_tail hn2) (fun hf => nomatch hf)]

theorem lowerChar_fix {c : Char} (h : normChar c) : lowerChar c = c := by
  rw [lowerChar, if_neg]
  intro hin
  simp only [Bool.and_eq_true, decide_eq_true_eq] at hin
  rcases h with h | h
  · simp only [isLowerAlnum, Bool.or_eq_true, Bool.and_eq_true, decide_eq_true_eq] at h
    omega
  · subst h
    exact absurd hin (by decide)

theorem map_lowerChar_id {t : Str} (h : ∀ c ∈ t, normChar c) : t.map lowerChar = t :=
  (List.map_congr_left fun c hc => lowerChar_fix (h c hc)).trans (List.map_id t)

theorem punctSub_id {t : Str} (h : ∀ c ∈ t, normChar c) : punctSub t = t := by
  rw [punctSub]
  refine (List.map_congr_left fun c hc => ?_).trans (List.map_id t)
  rcases h c hc with h1 | h1
  · rw [if_pos (by simp [h1])]
    rfl
  · subst h1
    rw [if_pos (by decide)]
    rfl

theorem stripWs_id {t : Str} (h1 : headNotWs t = true) (h2 : headNotWs t.reverse = true) :
    stripWs t = t := by
  rw [stripWs, dropWhile_of_headNotWs h1, dropWhile_of_headNotWs h2, List.reverse_reverse]

theorem stripWs_normal {u : Str} (hc : ∀ c ∈ u, normChar c) (hn : noTwoWs u = true) :
    (∀ c ∈ stripWs u, normChar c) ∧ noTwoWs (stripWs u) = true ∧
      headNotWs (stripWs u) = true ∧ headNotWs (stripWs u).reverse = true := by
  have hvc : ∀ c ∈ u.dropWhile isWsChar, normChar c :=
    fun c hcm => hc c ((List.dropWhile_suffix _).sublist.mem hcm)
  have hvn : noTwoWs (u.dropWhile isWsChar) = true := noTwoWs_dropWhile _ _ hn
  have hvh : headNotWs (u.dropWhile isWsChar) = true := headNotWs_dropWhile u
  obtain ⟨pre, hpre⟩ :=
    List.dropWhile_suffix (l := (u.dropWhile isWsChar).reverse) isWsChar
  have hsplit : u.dropWhile isWsChar =
      ((u.dropWhile isWsChar).reverse.dropWhile isWsChar).reverse ++ pre.reverse := by
    have h := congrArg List.reverse hpre
    rw [List.reverse_append, List.reverse_reverse] at h
    exact h.symm
  have hstrip : stripWs u =
      ((u.dropWhile isWsChar).reverse.dropWhile isWsChar).reverse := rfl
  rw [hstrip]
  refine ⟨?_, ?_, ?_, ?_⟩
  · intro c hcm
    exact hvc c (hsplit ▸ List.mem_append_left _ hcm)
  · exact noTwoWs_prefix _ _ (hsplit ▸ hvn)
  · exact headNotWs_of_append (hsplit ▸ hvh)
  · rw [List.reverse_reverse]
    exact headNotWs_dropWhile _

theorem normalize_title_normal (s : Str) :
    (∀ c ∈ normalize_title s, normChar c) ∧ noTwoWs (normalize_title s) = true ∧
      headNotWs (normalize_title s) = true ∧
      headNotWs (normalize_title s).reverse = true := by
  obtain ⟨hc, hn, -⟩ :=
    wsCollapseAux_props (punctSub (s.map lowerChar)) false (punctSub_chars _)
  exact stripWs_normal hc hn

theorem normalize_title_idem (s : Str) :
    normalize_title (normalize_title s) = normalize_title s := by
  obtain ⟨hc, hn, hh, hl⟩ := normalize_title_normal s
  show stripWs (wsCollapse (punctSub ((normalize_title s).map lowerChar))) = normalize_title s
  rw [map_lowerChar_id hc, punctSub_id hc,
    show wsCollapse (normalize_title s) = wsCollapseAux false (normalize_title s) from rfl,
    wsCollapseAux_id _ false hc hn (fun hf => nomatch hf), stripWs_id hh hl]

/-- C8: normalization is idempotent under tokenization: tokenizing an
already-normalized title gives the same token set as tokenizing the raw
title, because normalize_title is idempotent as a string function. -/
theorem c8_tokenize_normalize (x : Str) : tokenize (normalize_title x) = tokenize x := by
  rw [tokenize, tokenize, normalize_title_idem]

theorem jaccard_of_cards {a b : Finset Str} {i u : Nat} (ha : a ≠ ∅) (hb : b ≠ ∅)
    (hi : (a ∩ b).card = i) (hu : (a ∪ b).card = u) :
    jaccard_similarity a b = (i : ℚ) / u := by
  rw [jaccard_similarity, if_neg (by simp [ha]), if_neg (by simp [ha, hb]), hi, hu]

/-- C1 counterexample: with three DOI-less papers K, A, B, paper A is
dropped as a near-duplicate of K, and B, whose similarity with the sole
earlier KEPT paper K is 9/11 < 0.90, is nevertheless dropped, because the
code also compares it against the dropped paper A (similarity 10/11).
Under the claim as stated B would be kept. -/
theorem c1_counterexample :
    deduplicate_papers [mkTitled titleK, mkTitled titleA, mkTitled titleB] =
        [mkTitled titleK] ∧
    jaccard_similarity (tokenize titleB) (tokenize titleK) < 9/10 ∧
    (9 : ℚ)/10 ≤ jaccard_similarity (tokenize titleA) (tokenize titleK) ∧
    (9 : ℚ)/10 ≤ jaccard_similarity (tokenize titleB) (tokenize titleA) := by
  have hAK : jaccard_similarity (tokenize titleA) (tokenize titleK) = (9 : ℚ) / 10 :=
    jaccard_of_cards (by decide) (by decide) (by decide) (by decide)
  have hBK : jaccard_similarity (tokenize titleB) (tokenize titleK) = (9 : ℚ) / 11 :=
    jaccard_of_cards (by decide) (by decide) (by decide) (by decide)
  have hBA : jaccard_similarity (tokenize titleB) (tokenize titleA) = (10 : ℚ) / 11 :=
    jaccard_of_cards (by decide) (by decide) (by decide) (by decide)
  have hBKlt : jaccard_similarity (tokenize titleB) (tokenize titleK) < 9/10 := by
    rw [hBK]
    norm_num
  refine ⟨?_, hBKlt, by rw [hAK], by rw [hBA]; norm_num⟩
  have e1 : decide ((9 : ℚ)/10 ≤ jaccard_similarity (tokenize titleA) (tokenize titleK)) =
      true := decide_eq_true (by rw [hAK])
  have e2 : decide ((9 : ℚ)/10 ≤ jaccard_similarity (tokenize titleB) (tokenize titleK)) =
      false := decide_eq_false (not_le.mpr hBKlt)
  have e3 : decide ((9 : ℚ)/10 ≤ jaccard_similarity (tokenize titleB) (tokenize titleA)) =
      true := decide_eq_true (by rw [hBA]; norm_num)
  have hdoi : doiAssoc [mkTitled titleK, mkTitled titleA, mkTitled titleB] = [] := rfl
  have hwo : withoutDoi [mkTitled titleK, mkTitled titleA, mkTitled titleB] =
      [mkTitled titleK, mkTitled titleA, mkTitled titleB] := rfl
  rw [deduplicate_papers, hdoi, hwo, List.map_nil, List.nil_append]
  simp only [dedupTitle, mkTitled, List.any_nil, List.any_cons, List.nil_append,
    List.append_nil, e1, e2, e3, Bool.or_false, Bool.false_or, Bool.or_true]
  simp [mkTitled]
  intro
  rw [hBA]
  norm_num

/-- C1 amended: in the title phase every DOI-less paper is compared against
every EARLIER DOI-less paper of the input, dropped ones included, not only
against the earlier kept ones: paper i survives iff its similarity is below
0.90 against all previous DOI-less papers, and the result is the DOI-keyed
survivors followed by exactly those survivors. -/
theorem c1_title_dedup (papers : List Paper) :
    dedupTitle [] (withoutDoi papers) = titleSurvivors (withoutDoi papers) ∧
    deduplicate_papers papers =
      (doiAssoc papers).map Prod.snd ++ titleSurvivors (withoutDoi papers) := by
  have h := dedupTitle_eq_idxFilter (withoutDoi papers) []
  exact ⟨h, by rw [deduplicate_papers, h]; rfl⟩

theorem fst_le_of_mem_enumFrom {x : Nat × Paper} {n : Nat} {l : List Paper}
    (h : x ∈ List.enumFrom n l) : n ≤ x.1 := by
  induction l generalizing n with
  | nil => cases h
  | cons p rest ih =>
    rw [List.enumFrom, List.mem_cons] at h
    rcases h with h | h
    · rw [h]
    · exact Nat.le_of_succ_le (ih h)

theorem lexRel_iff_scoreGe (q : Str) {n j : Nat} (p b : Paper) (hnj : n < j) :
    lexRel q (n, p) (j, b) ↔ scoreGe q p b := by
  constructor
  · rintro (h | ⟨h, -⟩)
    · exact le_of_lt h
    · exact le_of_eq h.symm
  · intro h
    rcases lt_or_eq_of_le h with h' | h'
    · exact Or.inl h'
    · exact Or.inr ⟨h'.symm, Nat.le_of_lt hnj⟩

theorem map_snd_orderedInsert (q : Str) (n : Nat) (p : Paper) (ps : List (Nat × Paper))
    (h : ∀ x ∈ ps, n < x.1) :
    (List.orderedInsert (lexRel q) (n, p) ps).map Prod.snd =
      List.orderedInsert (scoreGe q) p (ps.map Prod.snd) := by
  induction ps with
  | nil => rfl
  | cons x t ih =>
    obtain ⟨j, b⟩ := x
    have hnj : n < j := h (j, b) (List.mem_cons_self _ _)
    by_cases hc : scoreGe q p b
    · rw [List.orderedInsert_of_le _ _ ((lexRel_iff_scoreGe q p b hnj).mpr hc),
        List.map_cons, List.map_cons]
      exact (List.orderedInsert_of_le _ _ hc).symm
    · rw [List.orderedInsert, if_neg (fun hl => hc ((lexRel_iff_scoreGe q p b hnj).mp hl)),
        List.map_cons, List.map_cons, List.orderedInsert, if_neg hc,
        ih (fun x hx => h x (List.mem_cons_of_mem _ hx))]

theorem map_snd_lexSort_enumFrom (q : Str) (l : List Paper) (n : Nat) :
    (List.insertionSort (lexRel q) (List.enumFrom n l)).map Prod.snd =
      List.insertionSort (scoreGe q) l := by
  induction l generalizing n with
  | nil => rfl
  | cons p rest ih =>
    rw [List.enumFrom, List.insertionSort, List.insertionSort]
    rw [map_snd_orderedInsert q n p _ (fun x hx =>
      Nat.lt_of_succ_le (fst_le_of_mem_enumFrom ((List.mem_insertionSort _).mp hx)))]
    rw [ih (n + 1)]

/-- C4: rank_and_select returns the first top_k papers of the stable
descending-score sort of its input: the output length is
min(top_k, number of papers); the sorted list is a permutation of the input,
its scores are pairwise descending (so nothing kept scores below anything
left out), and it equals the sort of the index-tagged papers by the
strict-score-then-original-index order, which pins the stable tie-breaking:
equal-score papers stay in input order. -/
theorem c4_rank_and_select (q : Str) (papers : List Paper) (top_k : Nat) :
    (rank_and_select q papers top_k).length = min top_k papers.length ∧
    rank_and_select q papers top_k = (sortPapers q papers).take top_k ∧
    (sortPapers q papers).Perm papers ∧
    List.Pairwise (scoreGe q) (sortPapers q papers) ∧
    sortPapers q papers = (lexSort q papers.enum).map Prod.snd ∧
    papers.Perm (rank_and_select q papers top_k ++ (sortPapers q papers).drop top_k) := by
  have hperm : (sortPapers q papers).Perm papers := List.perm_insertionSort _ _
  refine ⟨?_, rfl, hperm, ?_, ?_, ?_⟩
  · rw [rank_and_select, List.length_take, sortPapers, List.length_insertionSort]
  · exact List.sorted_insertionSort _ _
  · rw [sortPapers, lexSort, List.enum, map_snd_lexSort_enumFrom]
  · rw [rank_and_select, List.take_append_drop]
    exact hperm.symm

theorem clamp_year_comm (y : Option Int) :
    (max (min (pyYearOr y) 2030) 1990 : ℤ) = max 1990 (min (y.getD 1990) 2030) := by
  cases y with
  | none => decide
  | some v =>
    by_cases hv : v = 0
    · simp only [pyYearOr, hv, Option.getD_some, if_true]
      decide
    · simp only [pyYearOr, hv, Option.getD_some, if_false]
      exact max_comm _ _

/-- C7: score_paper computes
0.75 (1 - exp(-0.3 (2 mt + ma))) + 0.25 ((clamp(year-or-1990, 1990, 2030) - 1990) / 40)
over the query/title/abstract token overlaps; that formula is strictly
increasing in the title overlap with abstract and year fixed; every year at
most 1990 (and a missing year) contributes 0 recency, every year at least
2030 contributes 0.25. -/
theorem c7_score_paper (q : Str) (p : Paper) :
    score_paper q p = specScore ((tokenize q ∩ tokenize p.title).card)
        ((tokenize q ∩ tokenize p.abstract).card) p.year ∧
    (∀ mt mt' ma : ℕ, ∀ y : Option ℤ, mt < mt' → specScore mt ma y < specScore mt' ma y) ∧
    (∀ y : ℤ, y ≤ 1990 → 0.25 * specRecency (some y) = 0) ∧
    (∀ y : ℤ, 2030 ≤ y → 0.25 * specRecency (some y) = 0.25) ∧
    specRecency none = 0 := by
  refine ⟨?_, ?_, ?_, ?_, ?_⟩
  · simp only [score_paper, specScore, specRecency]
    rw [show ((tokenize q ∩ tokenize p.title).card * 2 +
        (tokenize q ∩ tokenize p.abstract).card * 1 : ℕ) =
        (2 * (tokenize q ∩ tokenize p.title).card +
          (tokenize q ∩ tokenize p.abstract).card : ℕ) from by ring]
    rw [show (2030 : ℝ) - 1990 = 40 from by norm_num]
    rw [clamp_year_comm]
  · intro mt mt' ma y h
    rw [specScore, specScore]
    have h1 : ((2 * mt + ma : ℕ) : ℝ) < ((2 * mt' + ma : ℕ) : ℝ) := by
      exact_mod_cast (show 2 * mt + ma < 2 * mt' + ma by omega)
    have h2 : Real.exp (-(0.3) * ((2 * mt' + ma : ℕ) : ℝ)) <
        Real.exp (-(0.3) * ((2 * mt + ma : ℕ) : ℝ)) := by
      apply Real.exp_lt_exp.mpr
      nlinarith
    linarith
  · intro y hy
    rw [specRecency]
    rw [show max 1990 (min ((some y).getD 1990) 2030) = (1990 : ℤ) from by
      simp only [Option.getD_some]
      omega]
    norm_num
  · intro y hy
    rw [specRecency]
    rw [show max 1990 (min ((some y).getD 1990) 2030) = (2030 : ℤ) from by
      simp only [Option.getD_some]
      omega]
    norm_num
  · rw [specRecency]
    norm_num

theorem c7_score_paper_witness :
    specScore 0 0 none < specScore 1 0 none ∧
    0.25 * specRecency (some 1980) = 0 ∧
    0.25 * specRecency (some 2050) = 0.25 :=
  ⟨(c7_score_paper [] (mkTitled [])).2.1 0 1 0 none (by decide),
    (c7_score_paper [] (mkTitled [])).2.2.1 1980 (by decide),
    (c7_score_paper [] (mkTitled [])).2.2.2.1 2050 (by decide)⟩

/-- C6: with no explicit preference and no configured default provider,
get_default_llm_provider runs the auto-detect chain: it returns the OpenAI
variant when that constructs, else the Together variant when that
constructs, else the local-host (Ollama) variant, which never fails, so this
path always returns a provider; in particular with no OpenAI or Together
key configured it returns the local-host provider. -/
theorem c6_auto_detect (pref : Option Str) (env : ProviderEnv)
    (hp : optTruthy pref = false) (hd : optTruthy env.default_llm_provider = false) :
    get_default_llm_provider pref env = .ok (autoDetectProvider env) ∧
    (∃ p, get_default_llm_provider pref env = .ok p) ∧
    (∀ p, mkOpenAIProvider env = .ok p → get_default_llm_provider pref env = .ok p) ∧
    (∀ e p, mkOpenAIProvider env = .error e → mkTogetherProvider env = .ok p →
      get_default_llm_provider pref env = .ok p) ∧
    (∀ e e', mkOpenAIProvider env = .error e → mkTogetherProvider env = .error e' →
      get_default_llm_provider pref env = .ok (mkOllamaProvider env)) ∧
    (optTruthy env.openai_api_key = false → optTruthy env.together_api_key = false →
      get_default_llm_provider pref env =
        .ok (Provider.ollama (rstripSlash env.ollama_base_url))) := by
  have hmain : get_default_llm_provider pref env = .ok (autoDetectProvider env) := by
    rw [get_default_llm_provider]
    have hor : pyOrOpt pref env.default_llm_provider = env.default_llm_provider := by
      rw [pyOrOpt, hp]
      simp
    rw [hor]
    match hdd : env.default_llm_provider with
    | none => rfl
    | some c =>
      have hc : c.isEmpty = true := by
        rw [hdd] at hd
        simpa [optTruthy] using hd
      simp [hc]
  refine ⟨hmain, ⟨_, hmain⟩, ?_, ?_, ?_, ?_⟩
  · intro p hok
    rw [hmain]
    simp [autoDetectProvider, hok]
  · intro e p he hok
    rw [hmain]
    simp [autoDetectProvider, he, hok]
  · intro e e' he he'
    rw [hmain]
    simp [autoDetectProvider, he, he']
  · intro h1 h2
    rw [hmain]
    simp [autoDetectProvider, mkOpenAIProvider, mkTogetherProvider, h1, h2, mkOllamaProvider]

theorem c6_auto_detect_witness :
    get_default_llm_provider none
        ⟨none, none, none, "http://localhost:11434/".data, true⟩ =
      .ok (Provider.ollama
        (rstripSlash (ProviderEnv.ollama_base_url
          ⟨none, none, none, "http://localhost:11434/".data, true⟩))) :=
  (c6_auto_detect none ⟨none, none, none, "http://localhost:11434/".data, true⟩
    rfl rfl).2.2.2.2.2 rfl rfl

theorem bgLinesFrom_length (i : Nat) (l : List Paper) :
    (bgLinesFrom i l).length = l.length := by
  induction l generalizing i with
  | nil => rfl
  | cons p rest ih => simp [bgLinesFrom, ih]

theorem kfLinesFrom_length (i : Nat) (l : List Paper) :
    (kfLinesFrom i l).length = l.length := by
  induction l generalizing i with
  | nil => rfl
  | cons p rest ih => simp [kfLinesFrom, ih]

theorem bgLinesFrom_enum (i : Nat) (l : List Paper) :
    bgLinesFrom i l = (List.enumFrom i l).map (fun ip => bgBullet ip.1 ip.2) := by
  induction l generalizing i with
  | nil => rfl
  | cons p rest ih => rw [bgLinesFrom, List.enumFrom, List.map_cons, ih (i + 1)]

/-- C9: the fallback report has exactly min(n, max(3, n / 3)) Background
bullets, each built by bgBullet from the 1-based index and the paper (title,
index, abstract-or-title snippet truncated to 600 characters with dots
appended on truncation), exactly min(5, n) Key Findings bullets, both bullet
blocks sitting inside the fallback line list in that order; with 6 selected
papers this gives 3 Background and 5 Key Findings bullets. -/
theorem c9_fallback_bullets (q : Str) (selected : List Paper) :
    (bgLines selected).length = min selected.length (max 3 (selected.length / 3)) ∧
    (kfLines selected).length = min 5 selected.length ∧
    bgLines selected = (List.enumFrom 1 (selected.take (max 3 (selected.length / 3)))).map
      (fun ip => bgBullet ip.1 ip.2) ∧
    (bgLines selected ++ "## Key Findings & Themes\n".data :: kfLines selected)
      <:+: fallbackLines q selected ∧
    (selected.length = 6 → (bgLines selected).length = 3 ∧ (kfLines selected).length = 5) := by
  have hbg : (bgLines selected).length =
      min selected.length (max 3 (selected.length / 3)) := by
    rw [bgLines, bgLinesFrom_length, List.length_take, Nat.min_comm]
  have hkf : (kfLines selected).length = min 5 selected.length := by
    rw [kfLines, kfLinesFrom_length, List.length_take]
  refine ⟨hbg, hkf, by rw [bgLines, bgLinesFrom_enum], ?_, ?_⟩
  · refine ⟨["# ".data ++ q ++ "\n".data, "## Executive Summary\n".data,
      if selected.isEmpty then "No sources were retrieved. The summary below is limited.\n".data
        else execSummaryProse,
      "## Background & Related Work\n".data],
      "## Limitations & Risks\n".data ::
        "- This non-LLM fallback uses abstracts and may miss methodological nuance.\n".data ::
        "## References\n".data :: refLines (build_citations selected), ?_⟩
    simp [fallbackLines]
  · intro h6
    rw [hbg, hkf, h6]
    decide

theorem c9_fallback_bullets_witness :
    (bgLines (List.replicate 6 (mkTitled "t".data))).length = 3 ∧
    (kfLines (List.replicate 6 (mkTitled "t".data))).length = 5 :=
  (c9_fallback_bullets "q".data (List.replicate 6 (mkTitled "t".data))).2.2.2.2 (by simp)

/-- C10: run_research called with top_k = 0 behaves exactly as if top_k were
absent (the Python falsiness test turns 0 into the configured default 10),
ResearchRequest imposes no constraint on top_k so the endpoint accepts
top_k = 0, and the response then carries at most 10 selected papers. -/
theorem c10_top_k_zero (q : Str) (prov : Option Str) (papers : List Paper)
    (llm : Option Str) :
    research_endpoint ⟨q, some 0, prov⟩ papers llm =
        research_endpoint ⟨q, none, prov⟩ papers llm ∧
    (research_endpoint ⟨q, some 0, prov⟩ papers llm).selected.length ≤ 10 := by
  constructor
  · rfl
  · by_cases hp : papers.isEmpty
    · simp [research_endpoint, run_research, hp]
    · simp only [research_endpoint, run_research, hp, Bool.false_eq_true, if_false]
      exact List.length_take_le 10 (sortPapers q (deduplicate_papers papers))

